import Mathlib

/-!
Shallow embedding of the polar-shape evaluator, the arc tessellator and the
angle-normalization utilities of `src/egui_extras_xt/src/common.rs` from the
egui-pots repository.

Modelling conventions:
* `f32` values are modelled as real numbers (`ℝ`); machine rounding is not
  modelled and finiteness of a result is inherent in the type.  Division by
  zero follows the Lean convention `x / 0 = 0`; in the source it yields an
  infinity, which can differ only at isolated angles where a trigonometric
  operand vanishes exactly.
* `Pos2` and `Vec2` are modelled as `ℝ × ℝ` with componentwise addition and
  scalar multiplication; `Vec2::angled a` is the unit vector `(cos a, sin a)`.
* A `Rot2` rotation argument is passed to the painting functions as the angle
  `(rotation * Vec2::RIGHT).angle()` that the source extracts from it.
* An `assert!` failure (a panic) is modelled by `Option`: `none` is a panic.
* `Color32` is an opaque fill color, modelled as `ℕ`.
-/

namespace EguiPots

open Real

/-- The `TAU` constant from `std::f32::consts`, one full turn in radians. -/
noncomputable def TAU : ℝ := 2 * Real.pi

/-- The `WidgetShape` descriptor tree from `common.rs`.  The `Custom` variant
owns an arbitrary caller-supplied polar function. -/
inductive WidgetShape where
  | Circle : WidgetShape
  | Square : WidgetShape
  | Squircle (factor : ℝ) : WidgetShape
  | Polygon (sides : ℕ) : WidgetShape
  | SuperPolygon (sides : ℕ) (factor : ℝ) : WidgetShape
  | Rotated (child : WidgetShape) (rotation : ℝ) : WidgetShape
  | Mix (shape_a : WidgetShape) (shape_b : WidgetShape) (t : ℝ) : WidgetShape
  | Custom (callback : ℝ → ℝ) : WidgetShape

/-- `WidgetShape::eval` from `common.rs`: the radius multiplier of the shape at
angle `theta`.  Real powers are `Real.rpow`, matching `f32::powf` on the
non-negative bases that occur here.  The `assert!` guards of the source are
modelled separately by `WidgetShape.evalChecked`; `eval` is the pure value the
source computes when no assertion fires. -/
noncomputable def WidgetShape.eval : WidgetShape → ℝ → ℝ
  | Circle, _ => 1
  | Square, theta => min (1 / |Real.cos theta|) (1 / |Real.sin theta|)
  | Squircle factor, theta =>
      (|Real.cos theta| ^ factor + |Real.sin theta| ^ factor) ^ (-1 / factor)
  | Polygon n, theta =>
      1 / Real.cos (Real.arcsin (Real.cos ((n : ℝ) / 2 * theta)) * 2 / (n : ℝ))
  | SuperPolygon n factor, theta =>
      (|Real.cos (0.25 * (n : ℝ) * theta)| ^ factor
        + |Real.sin (0.25 * (n : ℝ) * theta)| ^ factor) ^ (-1 / factor)
  | Rotated shape rotation, theta => shape.eval (theta - rotation)
  | Mix shape_a shape_b t, theta =>
      shape_a.eval theta * (1 - t) + shape_b.eval theta * t
  | Custom callback, theta => callback theta

/-- `WidgetShape::eval` with the `assert!` guards of the source made explicit:
`none` models a panic (`InvalidParameter`).  The guards appear in the order the
source checks them; in particular the `SuperPolygon` arm checks `sides >= 3`,
then `factor > 0.0`, then `(0.0..=2.0).contains(factor)`. -/
noncomputable def WidgetShape.evalChecked : WidgetShape → ℝ → Option ℝ
  | Circle, _ => some 1
  | Square, theta => some (min (1 / |Real.cos theta|) (1 / |Real.sin theta|))
  | Squircle factor, theta =>
      if 0 < factor then
        some ((|Real.cos theta| ^ factor + |Real.sin theta| ^ factor) ^ (-1 / factor))
      else none
  | Polygon n, theta =>
      if 3 ≤ n then
        some (1 / Real.cos (Real.arcsin (Real.cos ((n : ℝ) / 2 * theta)) * 2 / (n : ℝ)))
      else none
  | SuperPolygon n factor, theta =>
      if 3 ≤ n then
        if 0 < factor then
          if 0 ≤ factor ∧ factor ≤ 2 then
            some ((|Real.cos (0.25 * (n : ℝ) * theta)| ^ factor
              + |Real.sin (0.25 * (n : ℝ) * theta)| ^ factor) ^ (-1 / factor))
          else none
        else none
      else none
  | Rotated shape rotation, theta => shape.evalChecked (theta - rotation)
  | Mix shape_a shape_b t, theta =>
      match shape_a.evalChecked theta, shape_b.evalChecked theta with
      | some a, some b => some (a * (1 - t) + b * t)
      | _, _ => none
  | Custom callback, theta => some (callback theta)

/-- Parameter well-formedness for a descriptor: the stated per-variant
invariants (`Squircle` factor positive, `Polygon` and `SuperPolygon` at least
three sides, `SuperPolygon` factor in `[0, 2]`), strengthened — as the
`Mix`-extrapolation counterexample forces — by requiring every `Mix` blend
weight to lie in `[0, 1]` and every `Custom` callback to be pointwise
non-negative. -/
def WidgetShape.Valid : WidgetShape → Prop
  | Circle => True
  | Square => True
  | Squircle factor => 0 < factor
  | Polygon n => 3 ≤ n
  | SuperPolygon n factor => 3 ≤ n ∧ 0 ≤ factor ∧ factor ≤ 2
  | Rotated shape _ => shape.Valid
  | Mix shape_a shape_b t => shape_a.Valid ∧ shape_b.Valid ∧ 0 ≤ t ∧ t ≤ 1
  | Custom callback => ∀ theta, 0 ≤ callback theta

/-- The fill or stroke color type `epaint::Color32`, kept opaque. -/
abbrev Color32 := ℕ

/-- An `epaint::Stroke`: a line width and a color. -/
structure Stroke where
  width : ℝ
  color : Color32

/-- A draw primitive emitted to the painter sink: `Shape::line_segment`,
`Shape::convex_polygon` (the only filled primitive the arc path emits) or
`Shape::closed_line`. -/
inductive Primitive where
  | line_segment (p q : ℝ × ℝ) (stroke : Stroke) : Primitive
  | convex_polygon (points : List (ℝ × ℝ)) (fill : Color32) (stroke : Stroke) : Primitive
  | closed_line (points : List (ℝ × ℝ)) (stroke : Stroke) : Primitive

/-- Whether a primitive is a fill primitive (a filled convex polygon), as
opposed to a pure stroke primitive (line segment or polyline). -/
def Primitive.isFill : Primitive → Bool
  | convex_polygon _ _ _ => true
  | _ => false

/-- Modelled from the spec: `emath::almost_equal` (the `emath` dependency is
not under `src/`).  Per the wording of the spec, `start` and `end` count as
coincident when they are "within a small epsilon (reference: `0.001` radians)
of each other": `|a - b| ≤ epsilon`. -/
def almost_equal (a b epsilon : ℝ) : Prop := |a - b| ≤ epsilon

noncomputable instance (a b epsilon : ℝ) : Decidable (almost_equal a b epsilon) := by
  unfold almost_equal; infer_instance

/-- Modelled from the spec: `emath::lerp` (the `emath` dependency is not under
`src/`).  Per the spec, sample angles are "linearly interpolated between
`start` and `end` (inclusive of both ends)". -/
def lerp (start stop t : ℝ) : ℝ := (1 - t) * start + t * stop

/-- `Vec2::angled` from `emath`: the unit vector at the given angle. -/
noncomputable def angled (angle : ℝ) : ℝ × ℝ := (Real.cos angle, Real.sin angle)

/-- `WidgetShape::RESOLUTION`, the fixed angular sampling resolution. -/
def RESOLUTION : ℕ := 32

/-- The closure `generate_arc_points` inside `WidgetShape::paint_arc`: the
`RESOLUTION + 1` outline points of one arc rail at the given radius, sampled
at angles interpolated from `start_angle` to `end_angle` inclusive. -/
noncomputable def generate_arc_points (shape : WidgetShape) (center : ℝ × ℝ)
    (start_angle end_angle rotation_angle radius : ℝ) : List (ℝ × ℝ) :=
  (List.range (RESOLUTION + 1)).map fun i : ℕ =>
    let angle := lerp start_angle end_angle ((i : ℝ) / (RESOLUTION : ℝ))
    let shape_radius := shape.eval (angle - rotation_angle)
    center + (radius * shape_radius) • angled angle

/-- The non-degenerate (tessellating) branch of `WidgetShape::paint_arc`:
floor the inner radius at `0.1`, build the outer and inner point rails, emit
one filled quad per adjacent pair of rail point pairs (`tuple_windows` over
the zipped rails, modelled as zipping the pair list with its own tail), then
one closed outline tracing the outer arc forward and the inner arc reversed. -/
noncomputable def paint_arc_general (shape : WidgetShape) (center : ℝ × ℝ)
    (inner_radius outer_radius start_angle end_angle : ℝ)
    (fill : Color32) (stroke : Stroke) (rotation_angle : ℝ) : List Primitive :=
  let inner_radius := max inner_radius 0.1
  let outer_arc := generate_arc_points shape center start_angle end_angle rotation_angle outer_radius
  let inner_arc := generate_arc_points shape center start_angle end_angle rotation_angle inner_radius
  let rail_pairs := outer_arc.zip inner_arc
  (rail_pairs.zip rail_pairs.tail).map
      (fun w => Primitive.convex_polygon [w.1.1, w.1.2, w.2.2, w.2.1] fill ⟨1, fill⟩)
    ++ [Primitive.closed_line (outer_arc ++ inner_arc.reverse) stroke]

/-- `WidgetShape::paint_arc` from `common.rs`, as the list of primitives it
adds to the painter.  When the span is degenerate (`almost_equal` start/end)
it emits a single line segment from the inner-radius point to the outer-radius
point at the start angle, with the `inner_radius` given by the caller, unmodified;
otherwise it takes the general tessellation path. -/
noncomputable def paint_arc (shape : WidgetShape) (center : ℝ × ℝ)
    (inner_radius outer_radius start_angle end_angle : ℝ)
    (fill : Color32) (stroke : Stroke) (rotation_angle : ℝ) : List Primitive :=
  if almost_equal start_angle end_angle 0.001 then
    let shape_radius := shape.eval (start_angle - rotation_angle)
    [Primitive.line_segment
      (center + (inner_radius * shape_radius) • angled start_angle)
      (center + (outer_radius * shape_radius) • angled start_angle)
      stroke]
  else
    paint_arc_general shape center inner_radius outer_radius start_angle end_angle
      fill stroke rotation_angle

/-- Truncation toward zero, the rounding used by the `f32` `%` operator. -/
noncomputable def trunc (x : ℝ) : ℝ := if 0 ≤ x then (⌊x⌋ : ℝ) else (⌈x⌉ : ℝ)

/-- The Rust `%` operator on `f32`: the truncated-division remainder,
`x - y * trunc (x / y)`. -/
noncomputable def fmod (x y : ℝ) : ℝ := x - y * trunc (x / y)

/-- `normalized_angle_unsigned_incl` from `common.rs`: wrap an angle to the
closed range `[0, TAU]`. -/
noncomputable def normalized_angle_unsigned_incl (angle : ℝ) : ℝ :=
  if angle < 0 then fmod (fmod angle TAU + TAU) TAU
  else if angle > TAU then fmod angle TAU
  else angle

/-- C6: mixing two shapes with blend weight `0` reproduces the first shape
exactly, and with blend weight `1` the second shape exactly, at every angle. -/
theorem mix_endpoints (a b : WidgetShape) (theta : ℝ) :
    WidgetShape.eval (.Mix a b 0) theta = a.eval theta ∧
    WidgetShape.eval (.Mix a b 1) theta = b.eval theta := by
  constructor <;> simp [WidgetShape.eval]

/-- C7: evaluating a rotated shape at angle `theta` evaluates the child shape
at `theta - offset`, exactly. -/
theorem rotated_eval (s : WidgetShape) (offset theta : ℝ) :
    WidgetShape.eval (.Rotated s offset) theta = s.eval (theta - offset) := rfl

/-- C8: `normalized_angle_unsigned_incl` returns any input already in
`[0, TAU]` unchanged — in particular it preserves an exact `TAU` endpoint —
while an input strictly greater than `TAU` is wrapped via the `%` remainder;
at `TAU + 0.001` the result is `0.001`, near `0`. -/
theorem normalized_angle_incl_spec :
    (∀ a : ℝ, 0 ≤ a → a ≤ TAU → normalized_angle_unsigned_incl a = a) ∧
    (∀ a : ℝ, TAU < a → normalized_angle_unsigned_incl a = fmod a TAU) ∧
    normalized_angle_unsigned_incl TAU = TAU ∧
    normalized_angle_unsigned_incl (TAU + 0.001) = 0.001 := by
  have hT : (0:ℝ) < TAU := by rw [TAU]; positivity
  have hT6 : (0.001:ℝ) < TAU := by rw [TAU]; linarith [Real.pi_gt_three]
  refine ⟨?_, ?_, ?_, ?_⟩
  · intro a h0 h1
    rw [normalized_angle_unsigned_incl, if_neg (not_lt.mpr h0), if_neg (not_lt.mpr h1)]
  · intro a ha
    rw [normalized_angle_unsigned_incl, if_neg (by linarith), if_pos ha]
  · rw [normalized_angle_unsigned_incl, if_neg (by linarith), if_neg (by linarith)]
  · rw [normalized_angle_unsigned_incl, if_neg (by linarith), if_pos (by linarith)]
    have hfloor : ⌊(TAU + 0.001) / TAU⌋ = 1 := by
      rw [Int.floor_eq_iff]
      constructor
      · rw [le_div_iff₀ hT]; push_cast; linarith
      · rw [div_lt_iff₀ hT]; push_cast; linarith
    rw [fmod, trunc, if_pos (by positivity), hfloor]
    push_cast
    ring

/-- Witness for C8 at the concrete in-range input `1`. -/
theorem normalized_angle_incl_spec_witness : normalized_angle_unsigned_incl 1 = 1 :=
  normalized_angle_incl_spec.1 1 (by norm_num) (by rw [TAU]; linarith [Real.pi_gt_three])

/-- C9: the `0.1` inner-radius floor is applied only on the tessellation path;
the degenerate-span fallback uses the `inner_radius` given by the caller, unmodified, so
with `inner_radius = 0` and coincident start and end angles the emitted line
segment starts exactly at the center point. -/
theorem paint_arc_zero_inner_degenerate (shape : WidgetShape) (center : ℝ × ℝ)
    (outer_radius start_angle : ℝ) (fill : Color32) (stroke : Stroke)
    (rotation_angle : ℝ) :
    paint_arc shape center 0 outer_radius start_angle start_angle fill stroke
        rotation_angle =
      [Primitive.line_segment center
        (center + (outer_radius * shape.eval (start_angle - rotation_angle)) •
          angled start_angle)
        stroke] := by
  rw [paint_arc, if_pos (by norm_num [almost_equal])]
  simp

/-- C4: when the start and end angles are almost equal (absolute tolerance
`0.001`, as the spec states the `emath::almost_equal` guard; in particular
when they coincide), `paint_arc` skips tessellation and emits exactly one line
segment from the inner-radius point to the outer-radius point at the start
angle and zero fill primitives; otherwise it takes the general tessellation
path. -/
theorem paint_arc_degenerate_guard (shape : WidgetShape) (center : ℝ × ℝ)
    (inner_radius outer_radius start_angle end_angle : ℝ)
    (fill : Color32) (stroke : Stroke) (rotation_angle : ℝ) :
    (almost_equal start_angle end_angle 0.001 →
      paint_arc shape center inner_radius outer_radius start_angle end_angle fill
          stroke rotation_angle =
        [Primitive.line_segment
          (center + (inner_radius * shape.eval (start_angle - rotation_angle)) •
            angled start_angle)
          (center + (outer_radius * shape.eval (start_angle - rotation_angle)) •
            angled start_angle)
          stroke] ∧
      ((paint_arc shape center inner_radius outer_radius start_angle end_angle fill
          stroke rotation_angle).filter Primitive.isFill).length = 0) ∧
    (¬ almost_equal start_angle end_angle 0.001 →
      paint_arc shape center inner_radius outer_radius start_angle end_angle fill
          stroke rotation_angle =
        paint_arc_general shape center inner_radius outer_radius start_angle
          end_angle fill stroke rotation_angle) := by
  constructor
  · intro h
    rw [paint_arc, if_pos h]
    exact ⟨rfl, by simp [Primitive.isFill]⟩
  · intro h
    rw [paint_arc, if_neg h]

/-- Witness for C4 on the coincident span `start = end = 0`. -/
theorem paint_arc_degenerate_guard_witness :
    paint_arc .Circle ((0, 0) : ℝ × ℝ) 1 2 0 0 0 ⟨1, 0⟩ 0 =
      [Primitive.line_segment
        (((0, 0) : ℝ × ℝ) + (1 * WidgetShape.eval .Circle (0 - 0)) • angled 0)
        (((0, 0) : ℝ × ℝ) + (2 * WidgetShape.eval .Circle (0 - 0)) • angled 0)
        ⟨1, 0⟩] :=
  ((paint_arc_degenerate_guard .Circle ((0, 0) : ℝ × ℝ) 1 2 0 0 0 ⟨1, 0⟩ 0).1
    (by norm_num [almost_equal])).1

/-- Each rail produced by `generate_arc_points` has `RESOLUTION + 1` points. -/
theorem generate_arc_points_length (shape : WidgetShape) (center : ℝ × ℝ)
    (start_angle end_angle rotation_angle radius : ℝ) :
    (generate_arc_points shape center start_angle end_angle rotation_angle
      radius).length = RESOLUTION + 1 := by
  rw [generate_arc_points, List.length_map, List.length_range]

/-- C5: on a non-degenerate span `paint_arc` samples `RESOLUTION + 1 = 33`
interpolated angles on the outer rail and on the inner rail floored at
`max inner_radius 0.1` (both rails of length 33), emits exactly `RESOLUTION =
32` fill primitives, each a four-point quad filled with the fill color, and
exactly one non-fill primitive: the closed outline tracing the outer arc
forward then the inner arc reversed, `2 * 33 = 66` points in all. -/
theorem paint_arc_tessellation (shape : WidgetShape) (center : ℝ × ℝ)
    (inner_radius outer_radius start_angle end_angle : ℝ)
    (fill : Color32) (stroke : Stroke) (rotation_angle : ℝ)
    (h : ¬ almost_equal start_angle end_angle 0.001) :
    ((paint_arc shape center inner_radius outer_radius start_angle end_angle fill
        stroke rotation_angle).filter Primitive.isFill).length = RESOLUTION ∧
    (∀ p ∈ (paint_arc shape center inner_radius outer_radius start_angle end_angle
        fill stroke rotation_angle).filter Primitive.isFill,
      ∃ p1 p2 p3 p4, p = Primitive.convex_polygon [p1, p2, p3, p4] fill ⟨1, fill⟩) ∧
    (paint_arc shape center inner_radius outer_radius start_angle end_angle fill
        stroke rotation_angle).filter (fun p => ! p.isFill) =
      [Primitive.closed_line
        (generate_arc_points shape center start_angle end_angle rotation_angle
            outer_radius ++
          (generate_arc_points shape center start_angle end_angle rotation_angle
            (max inner_radius 0.1)).reverse)
        stroke] ∧
    (generate_arc_points shape center start_angle end_angle rotation_angle
        outer_radius ++
      (generate_arc_points shape center start_angle end_angle rotation_angle
        (max inner_radius 0.1)).reverse).length = 2 * (RESOLUTION + 1) := by
  rw [paint_arc, if_neg h, paint_arc_general]
  set outer_arc := generate_arc_points shape center start_angle end_angle
    rotation_angle outer_radius with houter
  set inner_arc := generate_arc_points shape center start_angle end_angle
    rotation_angle (max inner_radius 0.1) with hinner
  have hol : outer_arc.length = RESOLUTION + 1 := generate_arc_points_length ..
  have hil : inner_arc.length = RESOLUTION + 1 := generate_arc_points_length ..
  set rail_pairs := outer_arc.zip inner_arc with hrp
  set quads := (rail_pairs.zip rail_pairs.tail).map
    (fun w => Primitive.convex_polygon [w.1.1, w.1.2, w.2.2, w.2.1] fill ⟨1, fill⟩)
    with hq
  have hmem : ∀ p ∈ quads, ∃ p1 p2 p3 p4,
      p = Primitive.convex_polygon [p1, p2, p3, p4] fill ⟨1, fill⟩ := by
    intro p hp
    rw [hq, List.mem_map] at hp
    obtain ⟨w, _, rfl⟩ := hp
    exact ⟨w.1.1, w.1.2, w.2.2, w.2.1, rfl⟩
  have hfillq : ∀ p ∈ quads, Primitive.isFill p = true := by
    intro p hp
    obtain ⟨p1, p2, p3, p4, rfl⟩ := hmem p hp
    rfl
  have hfilter : (quads ++ [Primitive.closed_line (outer_arc ++ inner_arc.reverse)
      stroke]).filter Primitive.isFill = quads := by
    rw [List.filter_append, List.filter_eq_self.mpr hfillq]
    simp [Primitive.isFill]
  have hqlen : quads.length = RESOLUTION := by
    rw [hq, List.length_map, List.length_zip, List.length_tail, List.length_zip,
      hol, hil]
    simp only [RESOLUTION]
    omega
  refine ⟨?_, ?_, ?_, ?_⟩
  · rw [hfilter, hqlen]
  · rw [hfilter]
    exact hmem
  · rw [List.filter_append, List.filter_eq_nil_iff.mpr (by simpa using hfillq)]
    simp [Primitive.isFill]
  · rw [List.length_append, List.length_reverse, hol, hil]
    ring

/-- Witness for C5 on the quarter-turn span from `0` to `pi / 2`. -/
theorem paint_arc_tessellation_witness :
    ((paint_arc .Circle ((0, 0) : ℝ × ℝ) 1 2 0 (Real.pi / 2) 0 ⟨1, 0⟩ 0).filter
      Primitive.isFill).length = RESOLUTION :=
  (paint_arc_tessellation .Circle ((0, 0) : ℝ × ℝ) 1 2 0 (Real.pi / 2) 0 ⟨1, 0⟩ 0
    (by
      rw [almost_equal, not_le, zero_sub, abs_neg,
        abs_of_pos (by linarith [Real.pi_gt_three])]
      linarith [Real.pi_gt_three])).1

/-- The argument fed to the outer cosine of the `Polygon` arm stays within
`pi / n` of zero in absolute value. -/
theorem abs_polygon_arg_le {n : ℕ} (hn : 3 ≤ n) (y : ℝ) :
    |Real.arcsin y * 2 / (n : ℝ)| ≤ Real.pi / (n : ℝ) := by
  have hn0 : (0:ℝ) < (n : ℝ) := by
    have : (3:ℝ) ≤ (n : ℝ) := by exact_mod_cast hn
    linarith
  have harc : |Real.arcsin y| ≤ Real.pi / 2 :=
    abs_le.mpr ⟨Real.neg_pi_div_two_le_arcsin y, Real.arcsin_le_pi_div_two y⟩
  rw [abs_div, abs_mul, abs_of_pos hn0, show |(2:ℝ)| = 2 by norm_num]
  calc |Real.arcsin y| * 2 / (n : ℝ) ≤ Real.pi / 2 * 2 / (n : ℝ) := by gcongr
    _ = Real.pi / (n : ℝ) := by ring

/-- The outer cosine of the `Polygon` arm is positive whenever the polygon has
at least three sides. -/
theorem polygon_cos_pos {n : ℕ} (hn : 3 ≤ n) (y : ℝ) :
    0 < Real.cos (Real.arcsin y * 2 / (n : ℝ)) := by
  have hn3 : (3:ℝ) ≤ (n : ℝ) := by exact_mod_cast hn
  have hb := abs_polygon_arg_le hn y
  have hlt : Real.pi / (n : ℝ) < Real.pi / 2 :=
    div_lt_div_of_pos_left Real.pi_pos (by norm_num) (by linarith)
  have hab := abs_le.mp hb
  exact Real.cos_pos_of_mem_Ioo ⟨by linarith [hab.1], by linarith [hab.2]⟩

/-- C1 counterexample: the descriptor `Mix(Circle, Square, -3.0)` satisfies
every stated parameter invariant (the blend weight is contractually
unrestricted), yet its evaluation at `theta = pi / 4` is negative, refuting
the claimed unconditional non-negativity. -/
theorem mix_extrapolation_negative :
    WidgetShape.eval (.Mix .Circle .Square (-3)) (Real.pi / 4) < 0 := by
  have hgt : (4:ℝ) / 3 < Real.sqrt 2 :=
    (Real.lt_sqrt (by norm_num)).mpr (by norm_num)
  simp only [WidgetShape.eval]
  rw [Real.cos_pi_div_four, Real.sin_pi_div_four,
    abs_of_pos (show (0:ℝ) < Real.sqrt 2 / 2 by positivity), min_self,
    one_div_div, Real.div_sqrt]
  linarith

/-- C1 (amended): for every descriptor whose parameters satisfy the stated
invariants, strengthened by requiring each `Mix` blend weight to lie in
`[0, 1]` and each `Custom` callback to be pointwise non-negative, the
evaluation is non-negative at every angle (finiteness is inherent in the
real-valued model). -/
theorem eval_nonneg_of_valid :
    ∀ s : WidgetShape, s.Valid → ∀ theta : ℝ, 0 ≤ s.eval theta := by
  intro s
  induction s with
  | Circle =>
      intro _ theta
      simp only [WidgetShape.eval]
      norm_num
  | Square =>
      intro _ theta
      simp only [WidgetShape.eval]
      exact le_min (by positivity) (by positivity)
  | Squircle factor =>
      intro _ theta
      simp only [WidgetShape.eval]
      positivity
  | Polygon n =>
      intro hv theta
      simp only [WidgetShape.Valid] at hv
      simp only [WidgetShape.eval]
      exact le_of_lt (div_pos one_pos (polygon_cos_pos hv _))
  | SuperPolygon n factor =>
      intro _ theta
      simp only [WidgetShape.eval]
      positivity
  | Rotated child rotation ih =>
      intro hv theta
      simp only [WidgetShape.Valid] at hv
      simp only [WidgetShape.eval]
      exact ih hv _
  | Mix shape_a shape_b t iha ihb =>
      intro hv theta
      simp only [WidgetShape.Valid] at hv
      obtain ⟨ha, hb, ht0, ht1⟩ := hv
      simp only [WidgetShape.eval]
      have h1 := iha ha theta
      have h2 := ihb hb theta
      have : 0 ≤ 1 - t := by linarith
      positivity
  | Custom callback =>
      intro hv theta
      simp only [WidgetShape.eval]
      exact hv theta

/-- Witness for C1 on the valid descriptor `Polygon(4)` at angle `1`. -/
theorem eval_nonneg_of_valid_witness : 0 ≤ WidgetShape.eval (.Polygon 4) 1 :=
  eval_nonneg_of_valid _ (by norm_num [WidgetShape.Valid]) 1

/-- C10: for every polygon with at least three sides the radius multiplier is
at least `1` and at most `1 / cos (pi / n)` at every angle: it never dips
inside the unit circle and is bounded by the circumradius of a regular n-gon
with unit inradius. -/
theorem polygon_eval_bounds (n : ℕ) (hn : 3 ≤ n) (theta : ℝ) :
    1 ≤ WidgetShape.eval (.Polygon n) theta ∧
    WidgetShape.eval (.Polygon n) theta ≤ 1 / Real.cos (Real.pi / (n : ℝ)) := by
  have hn3 : (3:ℝ) ≤ (n : ℝ) := by exact_mod_cast hn
  have hpos := polygon_cos_pos hn (Real.cos ((n : ℝ) / 2 * theta))
  have hb := abs_polygon_arg_le hn (Real.cos ((n : ℝ) / 2 * theta))
  have hcos1 := Real.cos_le_one
    (Real.arcsin (Real.cos ((n : ℝ) / 2 * theta)) * 2 / (n : ℝ))
  have hlt : Real.pi / (n : ℝ) < Real.pi / 2 :=
    div_lt_div_of_pos_left Real.pi_pos (by norm_num) (by linarith)
  have hle_pi : Real.pi / (n : ℝ) ≤ Real.pi := by
    rw [div_le_iff₀ (by linarith)]
    nlinarith [Real.pi_pos]
  have hmono : Real.cos (Real.pi / (n : ℝ)) ≤
      Real.cos (Real.arcsin (Real.cos ((n : ℝ) / 2 * theta)) * 2 / (n : ℝ)) := by
    rw [← Real.cos_abs (Real.arcsin (Real.cos ((n : ℝ) / 2 * theta)) * 2 / (n : ℝ))]
    exact Real.cos_le_cos_of_nonneg_of_le_pi (abs_nonneg _) hle_pi hb
  have hq : 0 < Real.pi / (n : ℝ) := by positivity
  have hpin_pos : 0 < Real.cos (Real.pi / (n : ℝ)) :=
    Real.cos_pos_of_mem_Ioo ⟨by linarith [Real.pi_pos], hlt⟩
  simp only [WidgetShape.eval]
  constructor
  · rw [le_div_iff₀ hpos]
    linarith
  · exact one_div_le_one_div_of_le hpin_pos hmono

/-- Witness for C10 on the square `Polygon(4)` at angle `0`. -/
theorem polygon_eval_bounds_witness :
    1 ≤ WidgetShape.eval (.Polygon 4) 0 ∧
    WidgetShape.eval (.Polygon 4) 0 ≤ 1 / Real.cos (Real.pi / ((4 : ℕ) : ℝ)) :=
  polygon_eval_bounds 4 (by norm_num) 0

/-- `Polygon(4)` evaluates to `sqrt 2` at angle `0`: the code places a vertex,
not a flat side, on the positive x-axis. -/
theorem eval_polygon4_zero : WidgetShape.eval (.Polygon 4) 0 = Real.sqrt 2 := by
  simp only [WidgetShape.eval, Nat.cast_ofNat]
  rw [show (4:ℝ) / 2 * 0 = 0 by norm_num, Real.cos_zero, Real.arcsin_one,
    show Real.pi / 2 * 2 / (4:ℝ) = Real.pi / 4 by ring, Real.cos_pi_div_four,
    one_div_div, Real.div_sqrt]

/-- `Polygon(4)` evaluates to `1` at angle `pi / 4`: the flat-side midpoint is
at the diagonal, not at the axis. -/
theorem eval_polygon4_pi_div_four :
    WidgetShape.eval (.Polygon 4) (Real.pi / 4) = 1 := by
  simp only [WidgetShape.eval, Nat.cast_ofNat]
  rw [show (4:ℝ) / 2 * (Real.pi / 4) = Real.pi / 2 by ring, Real.cos_pi_div_two,
    Real.arcsin_zero, show (0:ℝ) * 2 / (4:ℝ) = 0 by norm_num, Real.cos_zero]
  norm_num

/-- `Polygon(4)` evaluates to `sqrt 2` at angle `pi / 2`, a second vertex. -/
theorem eval_polygon4_pi_div_two :
    WidgetShape.eval (.Polygon 4) (Real.pi / 2) = Real.sqrt 2 := by
  simp only [WidgetShape.eval, Nat.cast_ofNat]
  rw [show (4:ℝ) / 2 * (Real.pi / 2) = Real.pi by ring, Real.cos_pi,
    Real.arcsin_neg_one, show -(Real.pi / 2) * 2 / (4:ℝ) = -(Real.pi / 4) by ring,
    Real.cos_neg, Real.cos_pi_div_four, one_div_div, Real.div_sqrt]

/-- C2 counterexample: at `theta = 0` the `Polygon(4)` radius computed by the code is
`sqrt 2`, not within tolerance `1e-4` of the claimed multiplier `1`. -/
theorem polygon4_theta_zero_not_unit :
    ¬ |WidgetShape.eval (.Polygon 4) 0 - 1| ≤ 0.0001 := by
  rw [eval_polygon4_zero, not_le]
  have hgt : (4:ℝ) / 3 < Real.sqrt 2 := (Real.lt_sqrt (by norm_num)).mpr (by norm_num)
  rw [abs_of_pos (by linarith)]
  linarith

/-- C2 (amended): `Polygon(4)` reproduces the radii of a square with vertices
(not flat sides) at the axis angles: radius multiplier `sqrt 2` at `theta = 0`
and `theta = pi / 2` and `1` at `theta = pi / 4`, each within the
floating-point tolerance `1e-4` of the closed-form value (in fact exactly). -/
theorem polygon4_axis_radii :
    |WidgetShape.eval (.Polygon 4) 0 - Real.sqrt 2| ≤ 0.0001 ∧
    |WidgetShape.eval (.Polygon 4) (Real.pi / 4) - 1| ≤ 0.0001 ∧
    |WidgetShape.eval (.Polygon 4) (Real.pi / 2) - Real.sqrt 2| ≤ 0.0001 := by
  refine ⟨?_, ?_, ?_⟩
  · rw [eval_polygon4_zero, sub_self, abs_zero]; norm_num
  · rw [eval_polygon4_pi_div_four, sub_self, abs_zero]; norm_num
  · rw [eval_polygon4_pi_div_two, sub_self, abs_zero]; norm_num

/-- C3 counterexample: `SuperPolygon(3, 0.0)` has `sides >= 3` and its factor
lies in the claimed safe range `[0, 2]`, yet evaluation panics (`none`): the
source asserts `factor > 0.0` before the range check. -/
theorem superPolygon_zero_factor_fails :
    WidgetShape.evalChecked (.SuperPolygon 3 0) 0 = none := by
  simp only [WidgetShape.evalChecked]
  rw [if_pos (by norm_num), if_neg (by norm_num)]

/-- C3 (amended): for `n >= 3` evaluation of `SuperPolygon(n, k)` succeeds
exactly for `0 < k <= 2`, returning
`(|cos (n * theta / 4)|^k + |sin (n * theta / 4)|^k)^(-1/k)`, and the
`InvalidParameter` hard failure occurs exactly when `n < 3`, `k <= 0` or
`k > 2` (the `factor > 0.0` assertion in the code additionally rejects `k = 0`,
which the original claim counted as succeeding). -/
theorem superPolygon_checked_spec (n : ℕ) (k theta : ℝ) :
    (3 ≤ n → 0 < k → k ≤ 2 →
      WidgetShape.evalChecked (.SuperPolygon n k) theta =
        some ((|Real.cos (0.25 * (n : ℝ) * theta)| ^ k
          + |Real.sin (0.25 * (n : ℝ) * theta)| ^ k) ^ (-1 / k))) ∧
    (WidgetShape.evalChecked (.SuperPolygon n k) theta = none ↔
      n < 3 ∨ k ≤ 0 ∨ 2 < k) := by
  constructor
  · intro h1 h2 h3
    simp only [WidgetShape.evalChecked]
    rw [if_pos h1, if_pos h2, if_pos ⟨le_of_lt h2, h3⟩]
  · constructor
    · intro hnone
      simp only [WidgetShape.evalChecked] at hnone
      by_cases h1 : 3 ≤ n
      · by_cases h2 : 0 < k
        · by_cases h3 : k ≤ 2
          · rw [if_pos h1, if_pos h2, if_pos ⟨le_of_lt h2, h3⟩] at hnone
            exact absurd hnone (by simp)
          · exact Or.inr (Or.inr (not_le.mp h3))
        · exact Or.inr (Or.inl (not_lt.mp h2))
      · exact Or.inl (not_le.mp h1)
    · intro h
      simp only [WidgetShape.evalChecked]
      rcases h with h | h | h
      · rw [if_neg (by omega)]
      · by_cases h1 : 3 ≤ n
        · rw [if_pos h1, if_neg (not_lt.mpr h)]
        · rw [if_neg h1]
      · by_cases h1 : 3 ≤ n
        · by_cases h2 : 0 < k
          · rw [if_pos h1, if_pos h2, if_neg (fun hc => absurd hc.2 (not_le.mpr h))]
          · rw [if_pos h1, if_neg h2]
        · rw [if_neg h1]

/-- Witness for C3 on `SuperPolygon(3, 1.0)` at angle `0`. -/
theorem superPolygon_checked_spec_witness :
    WidgetShape.evalChecked (.SuperPolygon 3 1) 0 =
      some ((|Real.cos (0.25 * ((3 : ℕ) : ℝ) * 0)| ^ (1:ℝ)
        + |Real.sin (0.25 * ((3 : ℕ) : ℝ) * 0)| ^ (1:ℝ)) ^ (-1 / (1:ℝ))) :=
  (superPolygon_checked_spec 3 1 0).1 (by norm_num) one_pos one_le_two

end EguiPots
